import Mathlib

/-!
Verification of the Smart Room SCADA controller core
(`src/Smart_Room_SCADA.ino`).

The firmware's global state and the functions `updateSensorsAndLogic`,
`handleHistory`, `handleControl`, `handleSet` and `handleCsv` are embedded
shallowly:

* C `float` sensor values are modelled as exact rationals (`ℚ`); the
  `isnan` no-data sentinel is modelled with `Option`.
* C `int` values are modelled as `Int`, `uint32_t` values as `Nat`
  (with explicit `% 2 ^ 32` where the C arithmetic can wrap).
* The fixed-size array `HistoryEntry history[HISTORY_SIZE]` is modelled
  as a total function `Nat → HistoryEntry` read and written only at
  indices below `HISTORY_SIZE`.
* Hardware and network I/O (relay writes, LCD, JSON serialisation,
  `server.send`) have no observable effect on the controller state and
  are dropped; the log message emitted by the schedule rule is returned
  as an explicit event list.
-/

namespace SmartRoom

/-- `const int HISTORY_SIZE = 100;` -/
def HISTORY_SIZE : Nat := 100

/-- `struct HistoryEntry` (line 52): one telemetry sample.
`timestamp` is a `uint32_t` of epoch seconds, `temp`/`press` are C
floats modelled as `ℚ`, `heap` a `uint32_t`, `rssi` an `int`. -/
structure HistoryEntry where
  timestamp : Nat
  temp : ℚ
  press : ℚ
  heap : Nat
  rssi : Int
deriving DecidableEq, Repr

/-- The telemetry ring store: the globals `history`, `historyIndex`,
`historyCount` (lines 59-61). -/
structure HistoryState where
  data : Nat → HistoryEntry
  historyIndex : Nat
  historyCount : Nat

/-- Zero-initialised globals: `HistoryEntry history[HISTORY_SIZE]` with
`historyIndex = 0`, `historyCount = 0`. -/
def initHistory : HistoryState :=
  { data := fun _ => ⟨0, 0, 0, 0, 0⟩, historyIndex := 0, historyCount := 0 }

/-- The append in `updateSensorsAndLogic` (lines 184-190): write at
`historyIndex`, advance it mod `HISTORY_SIZE`, and increment
`historyCount` only while below `HISTORY_SIZE`. -/
def appendHistory (s : HistoryState) (e : HistoryEntry) : HistoryState :=
  { data := Function.update s.data s.historyIndex e
    historyIndex := (s.historyIndex + 1) % HISTORY_SIZE
    historyCount :=
      if s.historyCount < HISTORY_SIZE then s.historyCount + 1 else s.historyCount }

/-- The index expression `(historyIndex - historyCount + i + HISTORY_SIZE)
% HISTORY_SIZE` computed with C `int` arithmetic in both `handleHistory`
(line 435) and `handleCsv` (line 482). -/
def histIdx (s : HistoryState) (i : Nat) : Int :=
  ((s.historyIndex : Int) - (s.historyCount : Int) + (i : Int) + (HISTORY_SIZE : Int)) %
    (HISTORY_SIZE : Int)

/-- The ordered snapshot produced by `handleHistory` (lines 434-442): the
`historyCount` entries listed oldest to newest.  (The handler serialises
this list to JSON; the JSON wrapper itself carries no further state.) -/
def handleHistory (s : HistoryState) : List HistoryEntry :=
  (List.range s.historyCount).map (fun i => s.data (histIdx s i).toNat)

/-- Representation invariant of the ring store globals. -/
def HistInv (s : HistoryState) : Prop :=
  s.historyIndex < HISTORY_SIZE ∧ s.historyCount ≤ HISTORY_SIZE

instance (s : HistoryState) : Decidable (HistInv s) := by
  unfold HistInv; infer_instance

/-! ## Controller state, tick logic and command handlers -/

/-- The controller's global mutable state (lines 32-49 plus the ring
store), restricted to what the firmware logic reads or writes.  `logs`,
`cpuFreq`, `flashSize` and the millisecond timers are omitted: no claim
depends on them and they never feed back into the decision logic. -/
structure SysState where
  fanOn : Bool
  lightOn : Bool
  lampOn : Bool
  autoFanEnabled : Bool
  tempThreshold : ℚ
  scheduleEnabled : Bool
  scheduleHour : Int
  scheduleMinute : Int
  temp : ℚ
  press : ℚ
  heap : Nat
  rssi : Int
  lastMinute : Int
  hist : HistoryState

/-- The initial values of the globals (lines 32-47). -/
def initState : SysState :=
  { fanOn := false, lightOn := false, lampOn := false,
    autoFanEnabled := false, tempThreshold := 25,
    scheduleEnabled := false, scheduleHour := 0, scheduleMinute := 0,
    temp := 0, press := 0, heap := 0, rssi := 0,
    lastMinute := -1, hist := initHistory }

/-- External inputs consumed by one run of `updateSensorsAndLogic`:
the sensor readings (`none` models the NaN no-data sentinel of
`bmp.readTemperature()` and `bmp.readPressure()`), fresh diagnostics,
the RTC time, and the outcome of the monotonic-millis test
`currentMillis - lastHistory >= HISTORY_INTERVAL` that guards the
history append. -/
structure TickInput where
  newTemp : Option ℚ
  newPressRaw : Option ℚ
  heapIn : Nat
  rssiIn : Int
  hour : Int
  minute : Int
  unixtime : Nat
  historyDue : Bool

/-- The Boolean guard of the schedule rule (line 160): `scheduleEnabled
&& now.hour() == scheduleHour && now.minute() == scheduleMinute &&
lastMinute != currentMinute`. -/
def schedFires (s : SysState) (inp : TickInput) : Bool :=
  s.scheduleEnabled && (inp.hour == s.scheduleHour) && (inp.minute == s.scheduleMinute) &&
    (s.lastMinute != inp.minute)

/-- `updateSensorsAndLogic` (lines 143-193): last-known-good sensor
filter (the pressure reading is divided by 100 before the NaN test),
diagnostics refresh, schedule rule, auto-threshold rule, and the guarded
history append.  Relay and LCD writes are pure outputs and are dropped;
the `addLog("Scheduled Fan ON")` call is returned as an event list. -/
def updateSensorsAndLogic (s : SysState) (inp : TickInput) : SysState × List String :=
  let temp := match inp.newTemp with | some v => v | none => s.temp
  let press := match inp.newPressRaw with | some v => v / 100 | none => s.press
  let heap := inp.heapIn
  let rssi := inp.rssiIn
  let fired := schedFires s inp
  let fanOn1 := if fired then true else s.fanOn
  let events := if fired then ["Scheduled Fan ON"] else []
  let lastMinute := if fired then inp.minute else s.lastMinute
  let fanOn2 := if s.autoFanEnabled then decide (temp ≥ s.tempThreshold) else fanOn1
  let hist :=
    if inp.historyDue then
      appendHistory s.hist
        { timestamp := inp.unixtime, temp := temp, press := press, heap := heap, rssi := rssi }
    else s.hist
  ({ s with
      temp := temp, press := press, heap := heap, rssi := rssi
      fanOn := fanOn2, lastMinute := lastMinute, hist := hist }, events)

/-- Repeated runs of `updateSensorsAndLogic` (the `loop()` timer at line
136 fires it once per `UPDATE_INTERVAL`), collecting the emitted events
in order. -/
def runTicks : SysState → List TickInput → SysState × List String
  | s, [] => (s, [])
  | s, inp :: l =>
    let r := updateSensorsAndLogic s inp
    let rest := runTicks r.1 l
    (rest.1, r.2 ++ rest.2)

/-- `handleControl` (lines 448-462): `state == "on"` decides the new
value; only a recognised device name changes an actuator.  The log line
and the HTTP response carry no controller state. -/
def handleControl (s : SysState) (device state : String) : SysState :=
  let newState := state == "on"
  if device == "fan" then { s with fanOn := newState }
  else if device == "light" then { s with lightOn := newState }
  else if device == "lamp" then { s with lampOn := newState }
  else s

/-- `handleSet` (lines 464-477).  The `String` arguments `ty` and
`enable` are the raw query parameters; `threshold`, `hour` and `minute`
stand for the values returned by Arduino `String.toFloat()` /
`String.toInt()` on the raw parameters (both return 0 for unparseable
input). -/
def handleSet (s : SysState) (ty enable : String) (threshold : ℚ) (hour minute : Int) :
    SysState :=
  if ty == "auto" then
    { s with autoFanEnabled := enable == "true", tempThreshold := threshold }
  else if ty == "schedule" then
    { s with
        scheduleEnabled := enable == "true", scheduleHour := hour
        scheduleMinute := minute }
  else s

/-! ## CSV export (`handleCsv`) and its re-parse

`handleCsv` (lines 479-495) renders the same ordered view as
`handleHistory`, one comma-separated row per sample, after the fixed
header `Timestamp,Temperature,Pressure,Heap,RSSI`.  The timestamp is
formatted `YYYY-MM-DD HH:MM:SS` from a `DateTime` built from the epoch
value (the RTC library's `DateTime(uint32_t)` constructor and
`sprintf`), floats are rendered by Arduino `String(float, 1)` (one
rounded decimal), and integers by `String(...)` in decimal. -/

/-- One decimal digit as a character (`sprintf` / Arduino `String`). -/
def digitChar (d : Nat) : Char := Char.ofNat (48 + d)

/-- Numeric value of a decimal digit character. -/
def charVal (c : Char) : Nat := c.toNat - 48

/-- Fuel-based decimal rendering loop (the digit-extraction loop inside
`sprintf`/`String`); with fuel at least the digit count it produces the
usual most-significant-first digits. -/
def natCharsAux : Nat → Nat → List Char → List Char
  | 0, _, acc => acc
  | fuel + 1, n, acc =>
    if n < 10 then digitChar n :: acc
    else natCharsAux fuel (n / 10) (digitChar (n % 10) :: acc)

/-- Decimal rendering of a natural number (`String(uint32)`); renders 0
as "0". -/
def natChars (n : Nat) : List Char := natCharsAux (n + 1) n []

/-- Decimal parse of a digit string (what a CSV consumer computes). -/
def parseNatChars (l : List Char) : Nat :=
  Nat.ofDigits 10 ((l.map charVal).reverse)

/-- `String(int)`: optional minus sign before the decimal digits. -/
def intChars (z : Int) : List Char :=
  if z < 0 then '-' :: natChars z.natAbs else natChars z.natAbs

/-- Parse of an optionally signed decimal integer. -/
def parseIntChars (l : List Char) : Int :=
  if l.head? = some '-' then -(parseNatChars l.tail : Int) else (parseNatChars l : Int)

/-- `|v| * 10 + 1/2` rounded down, computed on the reduced fraction:
the value of the single rounded decimal printed by `String(float, 1)`
(which adds 0.5 of the last place to the magnitude and truncates). -/
def round1 (v : ℚ) : Nat := (v.num.natAbs * 20 + v.den) / (2 * v.den)

/-- Arduino `String(float, 1)`: sign, integer part, '.', one rounded
decimal digit. -/
def ratChars1 (v : ℚ) : List Char :=
  (if v < 0 then ['-'] else []) ++
    (natChars (round1 v / 10) ++ '.' :: [digitChar (round1 v % 10)])

/-- The exact rational value printed by `String(float, 1)`: the
one-decimal rounding of `v`. -/
def rnd1 (v : ℚ) : ℚ := mkRat ((if v < 0 then -1 else (1 : Int)) * round1 v) 10

/-- Split a character list at every occurrence of `c` (the field and
line splitting a CSV consumer performs). -/
def splitOnChar (c : Char) : List Char → List (List Char)
  | [] => [[]]
  | a :: t =>
    if a = c then [] :: splitOnChar c t
    else
      match splitOnChar c t with
      | [] => [[a]]
      | h :: r => (a :: h) :: r

/-- Parse of a decimal fraction string `[-]digits.digits` as an exact
rational. -/
def parseRatChars (l : List Char) : ℚ :=
  match splitOnChar '.' (if l.head? = some '-' then l.tail else l) with
  | [ip, fp] =>
    mkRat ((if l.head? = some '-' then -1 else (1 : Int)) *
      (parseNatChars ip * 10 ^ fp.length + parseNatChars fp)) (10 ^ fp.length)
  | _ => 0

/-- Calendar date and time, as held by the RTC library's `DateTime`
(`year()` returns the full year 2000 + yOff). -/
structure DT where
  year : Nat
  month : Nat
  day : Nat
  hour : Nat
  minute : Nat
  second : Nat
deriving DecidableEq, Repr

/-- `SECONDS_FROM_1970_TO_2000` of the RTC library. -/
def EPOCH2000 : Nat := 946684800

/-- 1 on the library's leap-year rule `yOff % 4 == 0`, else 0. -/
def leap (y : Nat) : Nat := if y % 4 = 0 then 1 else 0

/-- The year loop of `DateTime(uint32_t)`: subtract whole years from a
day count, starting at year offset `y`.  The fuel argument only bounds
the iteration count (one year consumes at least 365 days, so
`days / 365 + 1` fuel always suffices). -/
def yearLoop : Nat → Nat → Nat → Nat × Nat
  | 0, y, days => (y, days)
  | fuel + 1, y, days =>
    if days < 365 + leap y then (y, days)
    else yearLoop fuel (y + 1) (days - (365 + leap y))

/-- `daysInMonth` table of the RTC library. -/
def daysInMonthTab : List Nat := [31, 28, 31, 30, 31, 30, 31, 31, 30, 31, 30, 31]

/-- Length of month `m` (1-based) in a leap (`L`) or common year. -/
def monthLen (L : Bool) (m : Nat) : Nat :=
  daysInMonthTab.getD (m - 1) 0 + (if L = true ∧ m = 2 then 1 else 0)

/-- The month loop of `DateTime(uint32_t)`: `for (m = 1; m < 12; ++m)`
subtracting month lengths; fuel 12 covers the constant bound. -/
def monthLoop : Nat → Bool → Nat → Nat → Nat × Nat
  | 0, _, m, days => (m, days)
  | fuel + 1, L, m, days =>
    if m < 12 then
      if days < monthLen L m then (m, days)
      else monthLoop fuel L (m + 1) (days - monthLen L m)
    else (m, days)

/-- The body of the RTC library's `DateTime(uint32_t t)` constructor
after the initial `t -= SECONDS_FROM_1970_TO_2000`: split the reduced
value into seconds/minutes/hours/days and the days into year/month/day
with the `% 4` leap rule. -/
def epochToCivilAux (u : Nat) : DT :=
  let ss := u % 60
  let u1 := u / 60
  let mm := u1 % 60
  let u2 := u1 / 60
  let hh := u2 % 24
  let days := u2 / 24
  let yr := yearLoop (days / 365 + 1) 0 days
  let mo := monthLoop 12 (decide (yr.1 % 4 = 0)) 1 yr.2
  { year := 2000 + yr.1, month := mo.1, day := mo.2 + 1
    hour := hh, minute := mm, second := ss }

/-- The RTC library's `DateTime(uint32_t t)` constructor: `t` is first
reduced by `SECONDS_FROM_1970_TO_2000` in wrapping `uint32` arithmetic,
then converted to a calendar date. -/
def epochToCivil (t : Nat) : DT :=
  epochToCivilAux ((t + (2 ^ 32 - EPOCH2000)) % 2 ^ 32)

/-- The RTC library's `date2days`: day count since 2000-01-01 of a
calendar date (the inverse direction a CSV consumer computes). -/
def date2days (y m d : Nat) : Nat :=
  let yo := if 2000 ≤ y then y - 2000 else y
  (d + ((List.range' 1 (m - 1)).map (fun i => daysInMonthTab.getD (i - 1) 0)).sum +
      (if 2 < m ∧ yo % 4 = 0 then 1 else 0)) +
    365 * yo + (yo + 3) / 4 - 1

/-- The RTC library's `unixtime()` over a parsed calendar date, in
wrapping `uint32` arithmetic. -/
def civilToEpoch (c : DT) : Nat :=
  (((date2days c.year c.month c.day * 24 + c.hour) * 60 + c.minute) * 60 + c.second +
      EPOCH2000) % 2 ^ 32

/-- Zero-padded fixed-width decimal rendering (`sprintf` `%0wd`). -/
def padZero (w n : Nat) : List Char :=
  List.replicate (w - (natChars n).length) '0' ++ natChars n

/-- `sprintf(tbuf, "%04d-%02d-%02d %02d:%02d:%02d", ...)` over a
`DateTime` (line 486). -/
def fmtTs (c : DT) : List Char :=
  padZero 4 c.year ++ ('-' :: (padZero 2 c.month ++ ('-' :: (padZero 2 c.day ++
    (' ' :: (padZero 2 c.hour ++ (':' :: (padZero 2 c.minute ++
      (':' :: padZero 2 c.second)))))))))

/-- Positional parse of the fixed-width `YYYY-MM-DD HH:MM:SS` timestamp
back to an epoch value via `date2days`/`unixtime`. -/
def parseTsChars (l : List Char) : Nat :=
  civilToEpoch
    { year := parseNatChars (l.take 4), month := parseNatChars ((l.drop 5).take 2)
      day := parseNatChars ((l.drop 8).take 2), hour := parseNatChars ((l.drop 11).take 2)
      minute := parseNatChars ((l.drop 14).take 2), second := parseNatChars ((l.drop 17).take 2) }

/-- One CSV data row (line 486-491): formatted timestamp, temperature
and pressure to one decimal, heap, rssi, comma-separated. -/
def entryRowChars (e : HistoryEntry) : List Char :=
  fmtTs (epochToCivil e.timestamp) ++ (',' :: (ratChars1 e.temp ++ (',' ::
    (ratChars1 e.press ++ (',' :: (natChars e.heap ++ (',' :: intChars e.rssi)))))))

/-- The loop of `handleCsv`: every row followed by a newline. -/
def rowsChars : List HistoryEntry → List Char
  | [] => []
  | e :: t => entryRowChars e ++ '\n' :: rowsChars t

/-- The fixed CSV header row. -/
def csvHeaderChars : List Char := "Timestamp,Temperature,Pressure,Heap,RSSI".toList

/-- `handleCsv` (lines 479-495): header line then one line per stored
sample, over the same ordered view as `handleHistory`. -/
def handleCsv (s : HistoryState) : String :=
  String.mk (csvHeaderChars ++ '\n' :: rowsChars (handleHistory s))

/-- Re-parse of one CSV data row into a sample tuple. -/
def parseRowChars (l : List Char) : Option HistoryEntry :=
  match splitOnChar ',' l with
  | [ts, f1, f2, f3, f4] =>
    some
      { timestamp := parseTsChars ts, temp := parseRatChars f1, press := parseRatChars f2
        heap := parseNatChars f3, rssi := parseIntChars f4 }
  | _ => none

/-- Re-parse of the CSV export: split into lines, drop the header line
and the empty fragment after the final newline, parse each data row. -/
def parseCsv (s : String) : Option (List HistoryEntry) :=
  match splitOnChar '\n' s.toList with
  | [] => none
  | _ :: rest => rest.dropLast.mapM parseRowChars

/-- A sample with its temperature and pressure rounded to the one
decimal place the CSV export keeps. -/
def roundEntry (e : HistoryEntry) : HistoryEntry :=
  { e with temp := rnd1 e.temp, press := rnd1 e.press }

/-- Sum of the month lengths of the months before `m` (from month `a`). -/
def monthPriorFrom (L : Bool) (a m : Nat) : Nat :=
  ((List.range' a (m - a)).map (monthLen L)).sum

/-- Whole days in the year offsets before `y` under the `% 4` rule:
`365 * y + (y + 3) / 4`, the closed form used by `date2days`. -/
def priorDays (y : Nat) : Nat := 365 * y + (y + 3) / 4

/-! ## Ring store: lemmas and claims C1, C9 -/

lemma histInv_init : HistInv initHistory := by constructor <;> simp [initHistory, HISTORY_SIZE]

lemma histInv_append (s : HistoryState) (e : HistoryEntry) (h : HistInv s) :
    HistInv (appendHistory s e) := by
  obtain ⟨h1, h2⟩ := h
  constructor
  · exact Nat.mod_lt _ (by simp [HISTORY_SIZE])
  · simp only [appendHistory]
    split <;> omega

lemma histIdx_bounds (s : HistoryState) (i : Nat) (h : HistInv s)
    (hi : i < s.historyCount) : 0 ≤ histIdx s i ∧ histIdx s i < HISTORY_SIZE := by
  obtain ⟨h1, h2⟩ := h
  unfold histIdx HISTORY_SIZE at *
  constructor
  · omega
  · omega

/-- One append appends the new sample to the ordered snapshot, dropping
the oldest entry exactly when the store is already full. -/
lemma handleHistory_append (s : HistoryState) (e : HistoryEntry) (h : HistInv s) :
    handleHistory (appendHistory s e) =
      (handleHistory s ++ [e]).drop (s.historyCount + 1 - HISTORY_SIZE) := by
  obtain ⟨h1, h2⟩ := h
  unfold HISTORY_SIZE at h1 h2
  by_cases hc : s.historyCount < 100
  · -- not yet full: count grows by one, nothing is dropped
    have hcount : (appendHistory s e).historyCount = s.historyCount + 1 := by
      simp [appendHistory, HISTORY_SIZE, hc]
    have hdrop : s.historyCount + 1 - HISTORY_SIZE = 0 := by
      unfold HISTORY_SIZE; omega
    rw [hdrop, List.drop_zero]
    unfold handleHistory
    rw [hcount, List.range_succ, List.map_append]
    congr 1
    · -- the surviving entries are read at unchanged indices, none of them
      -- the slot just written
      apply List.map_congr_left
      intro i hi
      rw [List.mem_range] at hi
      have hidx : (histIdx (appendHistory s e) i).toNat = (histIdx s i).toNat := by
        simp only [histIdx, appendHistory, HISTORY_SIZE]
        rw [if_pos hc]
        omega
      have hne : (histIdx s i).toNat ≠ s.historyIndex := by
        simp only [histIdx, HISTORY_SIZE]
        omega
      show (appendHistory s e).data (histIdx (appendHistory s e) i).toNat =
        s.data (histIdx s i).toNat
      rw [hidx]
      show Function.update s.data s.historyIndex e (histIdx s i).toNat =
        s.data (histIdx s i).toNat
      rw [Function.update_noteq hne]
    · -- the new entry appears last, read back from the slot just written
      simp only [List.map_cons, List.map_nil]
      have hidx : (histIdx (appendHistory s e) s.historyCount).toNat = s.historyIndex := by
        simp only [histIdx, appendHistory, HISTORY_SIZE]
        rw [if_pos hc]
        omega
      show [(appendHistory s e).data (histIdx (appendHistory s e) s.historyCount).toNat] = [e]
      rw [hidx]
      show [Function.update s.data s.historyIndex e s.historyIndex] = [e]
      rw [Function.update_same]
  · -- full store: count stays at capacity and the oldest entry is dropped
    have hc100 : s.historyCount = 100 := by omega
    have hcount : (appendHistory s e).historyCount = 100 := by
      simp [appendHistory, HISTORY_SIZE, hc, hc100]
    have hdrop : s.historyCount + 1 - HISTORY_SIZE = 1 := by
      unfold HISTORY_SIZE; omega
    rw [hdrop]
    unfold handleHistory
    rw [hcount, hc100]
    have h100a : List.range 100 = List.range 99 ++ [99] := by
      rw [show (100 : Nat) = 99 + 1 from rfl, List.range_succ]
    have h100b : List.range 100 = 0 :: (List.range 99).map (· + 1) := by
      rw [show (100 : Nat) = 99 + 1 from rfl, List.range_succ_eq_map]
    rw [List.drop_append_of_le_length (by simp [hc100])]
    conv_lhs => rw [h100a]
    conv_rhs => rw [h100b]
    simp only [List.map_append, List.map_cons, List.map_nil, List.drop_one,
      List.tail_cons, List.map_map]
    congr 1
    · apply List.map_congr_left
      intro i hi
      rw [List.mem_range] at hi
      have hidx : (histIdx (appendHistory s e) i).toNat =
          (histIdx s (i + 1)).toNat := by
        simp only [histIdx, appendHistory, hc100, HISTORY_SIZE]
        rw [if_neg (show ¬(100 : Nat) < 100 by omega)]
        omega
      have hne : (histIdx s (i + 1)).toNat ≠ s.historyIndex := by
        simp only [histIdx, hc100, HISTORY_SIZE]
        omega
      show (appendHistory s e).data (histIdx (appendHistory s e) i).toNat =
        ((fun i => s.data (histIdx s i).toNat) ∘ (· + 1)) i
      simp only [Function.comp_apply]
      rw [hidx]
      show Function.update s.data s.historyIndex e (histIdx s (i + 1)).toNat =
        s.data (histIdx s (i + 1)).toNat
      rw [Function.update_noteq hne]
    · have hidx : (histIdx (appendHistory s e) 99).toNat = s.historyIndex := by
        simp only [histIdx, appendHistory, hc100, HISTORY_SIZE]
        rw [if_neg (show ¬(100 : Nat) < 100 by omega)]
        omega
      show [(appendHistory s e).data (histIdx (appendHistory s e) 99).toNat] = [e]
      rw [hidx]
      show [Function.update s.data s.historyIndex e s.historyIndex] = [e]
      rw [Function.update_same]

/-- After any sequence of appends the ring store satisfies its invariant,
its count saturates at capacity, and the snapshot is exactly the suffix
of the appended samples that fits. -/
lemma foldl_append_spec (xs : List HistoryEntry) :
    HistInv (xs.foldl appendHistory initHistory) ∧
      (xs.foldl appendHistory initHistory).historyCount = min xs.length HISTORY_SIZE ∧
      handleHistory (xs.foldl appendHistory initHistory) =
        xs.drop (xs.length - HISTORY_SIZE) := by
  induction xs using List.reverseRecOn with
  | nil =>
    refine ⟨histInv_init, ?_, ?_⟩
    · simp [initHistory, HISTORY_SIZE]
    · simp [handleHistory, initHistory]
  | append_singleton xs x ih =>
    obtain ⟨hinv, hcnt, hsnap⟩ := ih
    rw [List.foldl_append]
    simp only [List.foldl_cons, List.foldl_nil]
    refine ⟨histInv_append _ _ hinv, ?_, ?_⟩
    · simp only [appendHistory, hcnt, List.length_append, List.length_cons,
        List.length_nil, HISTORY_SIZE]
      unfold HISTORY_SIZE at *
      split <;> omega
    · rw [handleHistory_append _ _ hinv, hsnap, hcnt]
      unfold HISTORY_SIZE
      by_cases hlen : xs.length < 100
      · have d1 : xs.length - 100 = 0 := by omega
        have d2 : min xs.length 100 + 1 - 100 = 0 := by omega
        have d3 : (xs ++ [x]).length - 100 = 0 := by simp; omega
        rw [d1, d2, d3, List.drop_zero, List.drop_zero, List.drop_zero]
      · have d2 : min xs.length 100 + 1 - 100 = 1 := by omega
        have d3 : (xs ++ [x]).length - 100 = xs.length - 99 := by
          simp only [List.length_append, List.length_cons, List.length_nil]
          omega
        rw [d2, d3, List.drop_append_of_le_length (by simp only [List.length_drop]; omega),
          List.drop_append_of_le_length (by omega), List.drop_drop]
        congr 2
        omega

/-- C1: for every sequence of appends, the handleHistory snapshot is the
suffix of the appended samples of length `min (number of appends) 100`,
oldest to newest; in particular a `capacity + 1`-append sequence yields
the last 100 samples, so the first-written sample's position is gone. -/
theorem c1_ring_snapshot (xs : List HistoryEntry) :
    (handleHistory (xs.foldl appendHistory initHistory) =
        xs.drop (xs.length - HISTORY_SIZE) ∧
      (handleHistory (xs.foldl appendHistory initHistory)).length =
        min xs.length HISTORY_SIZE) ∧
    (xs.length = HISTORY_SIZE + 1 →
      handleHistory (xs.foldl appendHistory initHistory) = xs.drop 1 ∧
        (handleHistory (xs.foldl appendHistory initHistory)).length = HISTORY_SIZE) := by
  obtain ⟨-, -, hsnap⟩ := foldl_append_spec xs
  have hlen : (handleHistory (xs.foldl appendHistory initHistory)).length =
      min xs.length HISTORY_SIZE := by
    rw [hsnap, List.length_drop]
    omega
  refine ⟨⟨hsnap, hlen⟩, fun h101 => ⟨?_, ?_⟩⟩
  · rw [hsnap, h101]
    simp [HISTORY_SIZE]
  · rw [hlen, h101]
    simp [HISTORY_SIZE]

/-- Witness for C1 at a concrete 101-append sequence. -/
theorem c1_ring_snapshot_witness :
    handleHistory (((List.range (HISTORY_SIZE + 1)).map
        (fun i => ({ timestamp := i, temp := 0, press := 0, heap := 0, rssi := 0 } :
          HistoryEntry))).foldl appendHistory initHistory) =
      ((List.range (HISTORY_SIZE + 1)).map
        (fun i => ({ timestamp := i, temp := 0, press := 0, heap := 0, rssi := 0 } :
          HistoryEntry))).drop 1 :=
  ((c1_ring_snapshot _).2 (by simp)).1

/-- C9: the ring store globals always satisfy `0 ≤ historyIndex < 100` and
`0 ≤ historyCount ≤ 100` (count saturating at capacity): the invariant
holds initially, is preserved by every append, the append's write index
is in bounds, and every index computed by the shared
`(historyIndex - historyCount + i + HISTORY_SIZE) % HISTORY_SIZE`
expression of `handleHistory` and `handleCsv` is in bounds. -/
theorem c9_index_invariant :
    HistInv initHistory ∧
    (∀ s e, HistInv s → HistInv (appendHistory s e)) ∧
    (∀ s, HistInv s → s.historyIndex < HISTORY_SIZE) ∧
    (∀ s i, HistInv s → i < s.historyCount →
      0 ≤ histIdx s i ∧ histIdx s i < HISTORY_SIZE) :=
  ⟨histInv_init, histInv_append, fun _ h => h.1, histIdx_bounds⟩

/-- Witness for C9 at a concrete store reached by two appends. -/
theorem c9_index_invariant_witness :
    HistInv (appendHistory (appendHistory initHistory ⟨1, 1, 1, 1, 1⟩) ⟨2, 2, 2, 2, 2⟩) ∧
      0 ≤ histIdx (appendHistory (appendHistory initHistory ⟨1, 1, 1, 1, 1⟩) ⟨2, 2, 2, 2, 2⟩) 1 ∧
      histIdx (appendHistory (appendHistory initHistory ⟨1, 1, 1, 1, 1⟩) ⟨2, 2, 2, 2, 2⟩) 1 <
        HISTORY_SIZE := by
  have h1 : HistInv (appendHistory (appendHistory initHistory ⟨1, 1, 1, 1, 1⟩) ⟨2, 2, 2, 2, 2⟩) :=
    c9_index_invariant.2.1 _ _ (c9_index_invariant.2.1 _ _ c9_index_invariant.1)
  have h2 := c9_index_invariant.2.2.2 _ 1 h1 (by decide)
  exact ⟨h1, h2⟩

/-! ## Control loop and handlers: lemmas and claims C2, C3, C4, C5, C7, C8, C10 -/

/-- A tick never changes the automation configuration. -/
lemma tick_config (s : SysState) (inp : TickInput) :
    (updateSensorsAndLogic s inp).1.autoFanEnabled = s.autoFanEnabled ∧
    (updateSensorsAndLogic s inp).1.tempThreshold = s.tempThreshold ∧
    (updateSensorsAndLogic s inp).1.scheduleEnabled = s.scheduleEnabled ∧
    (updateSensorsAndLogic s inp).1.scheduleHour = s.scheduleHour ∧
    (updateSensorsAndLogic s inp).1.scheduleMinute = s.scheduleMinute :=
  ⟨rfl, rfl, rfl, rfl, rfl⟩

/-- C4: whenever auto mode is on, the tick's resulting fan state is
exactly the inclusive comparison of the tick's resulting
(last-known-good) temperature against the stored threshold, regardless
of the schedule rule on the same tick or any prior fan state. -/
theorem c4_auto_threshold (s : SysState) (inp : TickInput)
    (h : s.autoFanEnabled = true) :
    ((updateSensorsAndLogic s inp).1.fanOn = true ↔
      (updateSensorsAndLogic s inp).1.temp ≥ s.tempThreshold) := by
  simp [updateSensorsAndLogic, h]

/-- Witness for C4 at the spec's boundary pair: threshold 25.0, reading
25.0 turns the fan on (inclusive boundary) and reading 24.9 turns it
off, both from a prior state with the fan latched on manually. -/
theorem c4_auto_threshold_witness :
    (updateSensorsAndLogic
        { initState with autoFanEnabled := true, tempThreshold := 25, fanOn := true }
        { newTemp := some 25, newPressRaw := none, heapIn := 0, rssiIn := 0,
          hour := 0, minute := 0, unixtime := 0, historyDue := false }).1.fanOn = true ∧
    (updateSensorsAndLogic
        { initState with autoFanEnabled := true, tempThreshold := 25, fanOn := true }
        { newTemp := some (249/10), newPressRaw := none, heapIn := 0, rssiIn := 0,
          hour := 0, minute := 0, unixtime := 0, historyDue := false }).1.fanOn ≠ true := by
  constructor
  · exact (c4_auto_threshold _ _ rfl).2 (by norm_num [updateSensorsAndLogic, initState])
  · intro h
    exact absurd ((c4_auto_threshold _ _ rfl).1 h)
      (by norm_num [updateSensorsAndLogic, initState])

/-- C5: on every tick, an invalid (NaN) temperature or pressure reading
leaves the corresponding stored value unchanged at its last valid
value; only a valid reading is stored, and the decision logic and the
history append only ever see the stored (last-known-good) values. -/
theorem c5_last_known_good (s : SysState) (inp : TickInput) :
    (inp.newTemp = none → (updateSensorsAndLogic s inp).1.temp = s.temp) ∧
    (inp.newPressRaw = none → (updateSensorsAndLogic s inp).1.press = s.press) := by
  constructor <;> intro h <;> simp [updateSensorsAndLogic, h]

/-- Witness for C5: after a valid reading of 23.5 an invalid reading
leaves the stored temperature at 23.5 (and the pressure untouched). -/
theorem c5_last_known_good_witness :
    (updateSensorsAndLogic { initState with temp := 235/10, press := 1000 }
        { newTemp := none, newPressRaw := none, heapIn := 0, rssiIn := 0,
          hour := 0, minute := 0, unixtime := 0, historyDue := false }).1.temp =
      (235/10 : ℚ) ∧
    (updateSensorsAndLogic { initState with temp := 235/10, press := 1000 }
        { newTemp := none, newPressRaw := none, heapIn := 0, rssiIn := 0,
          hour := 0, minute := 0, unixtime := 0, historyDue := false }).1.press =
      (1000 : ℚ) :=
  ⟨(c5_last_known_good _ _).1 rfl, (c5_last_known_good _ _).2 rfl⟩

/-- The schedule guard is false whenever the hour or minute does not
match or scheduling is disabled. -/
lemma schedFires_false_of (s : SysState) (inp : TickInput)
    (h : inp.hour ≠ s.scheduleHour ∨ inp.minute ≠ s.scheduleMinute ∨
      s.scheduleEnabled = false) : schedFires s inp = false := by
  rcases h with h | h | h <;> simp [schedFires, h]

/-- C7 part 2 workhorse: with auto mode off and no tick matching the
schedule time, the fan state survives any run of ticks. -/
lemma fan_persists (s : SysState) (l : List TickInput)
    (hauto : s.autoFanEnabled = false)
    (hl : ∀ inp ∈ l, inp.hour ≠ s.scheduleHour ∨ inp.minute ≠ s.scheduleMinute ∨
      s.scheduleEnabled = false) :
    (runTicks s l).1.fanOn = s.fanOn := by
  induction l generalizing s with
  | nil => rfl
  | cons inp l ih =>
    have hfired : schedFires s inp = false :=
      schedFires_false_of s inp (hl inp (List.mem_cons_self _ _))
    have hstep : (updateSensorsAndLogic s inp).1.fanOn = s.fanOn := by
      simp [updateSensorsAndLogic, hfired, hauto]
    have hrest : (runTicks (updateSensorsAndLogic s inp).1 l).1.fanOn =
        (updateSensorsAndLogic s inp).1.fanOn := by
      apply ih
      · rw [(tick_config s inp).1]; exact hauto
      · intro i hi
        rw [(tick_config s inp).2.2.2.1, (tick_config s inp).2.2.2.2,
          (tick_config s inp).2.2.1]
        exact hl i (List.mem_cons_of_mem _ hi)
    show (runTicks (updateSensorsAndLogic s inp).1 l).1.fanOn = s.fanOn
    rw [hrest, hstep]

/-- C7: a tick on which the schedule rule does not fire and auto mode is
off leaves the fan unchanged; consequently a manually set fan value
persists across arbitrarily many ticks none of which matches the
schedule time. -/
theorem c7_manual_persistence :
    (∀ s inp, s.autoFanEnabled = false → schedFires s inp = false →
      (updateSensorsAndLogic s inp).1.fanOn = s.fanOn) ∧
    (∀ s l, s.autoFanEnabled = false →
      (∀ inp ∈ l, inp.hour ≠ s.scheduleHour ∨ inp.minute ≠ s.scheduleMinute ∨
        s.scheduleEnabled = false) →
      (runTicks s l).1.fanOn = s.fanOn) := by
  constructor
  · intro s inp hauto hfired
    simp [updateSensorsAndLogic, hfired, hauto]
  · exact fan_persists

/-- Witness for C7: a manually latched fan stays on across three ticks
with the schedule disabled and auto mode off. -/
theorem c7_manual_persistence_witness :
    (runTicks { initState with fanOn := true }
        (List.replicate 3
          { newTemp := some 30, newPressRaw := none, heapIn := 0, rssiIn := 0,
            hour := 6, minute := 0, unixtime := 0, historyDue := false })).1.fanOn = true :=
  c7_manual_persistence.2 _ _ rfl (by decide)

/-- C8: automation never touches the light or the lamp: a tick preserves
both, `handleSet` preserves both, and `handleControl` changes each only
when it names that device. -/
theorem c8_light_lamp_frame :
    (∀ s inp, (updateSensorsAndLogic s inp).1.lightOn = s.lightOn ∧
      (updateSensorsAndLogic s inp).1.lampOn = s.lampOn) ∧
    (∀ s ty enable threshold hour minute,
      (handleSet s ty enable threshold hour minute).lightOn = s.lightOn ∧
      (handleSet s ty enable threshold hour minute).lampOn = s.lampOn) ∧
    (∀ s device state, device ≠ "light" →
      (handleControl s device state).lightOn = s.lightOn) ∧
    (∀ s device state, device ≠ "lamp" →
      (handleControl s device state).lampOn = s.lampOn) := by
  refine ⟨fun s inp => ⟨rfl, rfl⟩, fun s ty enable threshold hour minute => ⟨?_, ?_⟩,
    fun s device state h => ?_, fun s device state h => ?_⟩
  · simp [handleSet, apply_ite SysState.lightOn]
  · simp [handleSet, apply_ite SysState.lampOn]
  · simp [handleControl, apply_ite SysState.lightOn, h]
  · simp [handleControl, apply_ite SysState.lampOn, h]

/-- Witness for C8: a fan command and a schedule command both leave the
light and lamp untouched. -/
theorem c8_light_lamp_frame_witness :
    (handleControl { initState with lightOn := true } "fan" "on").lightOn = true ∧
    (handleControl { initState with lampOn := true } "fan" "on").lampOn = true ∧
    (updateSensorsAndLogic { initState with lightOn := true }
        { newTemp := some 30, newPressRaw := none, heapIn := 0, rssiIn := 0,
          hour := 0, minute := 0, unixtime := 0, historyDue := false }).1.lightOn = true :=
  ⟨c8_light_lamp_frame.2.2.1 _ "fan" "on" (by decide),
    c8_light_lamp_frame.2.2.2 _ "fan" "on" (by decide),
    (c8_light_lamp_frame.1 _ _).1⟩

/-- C10: a manual control command sets the named device on exactly when
the state argument is the literal string "on" (any other string sets it
off), leaves the other two actuators untouched, and an unrecognised
device name changes none of the three actuators. -/
theorem c10_handleControl (s : SysState) (device state : String) :
    (device = "fan" → (handleControl s device state).fanOn = (state == "on") ∧
      (handleControl s device state).lightOn = s.lightOn ∧
      (handleControl s device state).lampOn = s.lampOn) ∧
    (device = "light" → (handleControl s device state).lightOn = (state == "on") ∧
      (handleControl s device state).fanOn = s.fanOn ∧
      (handleControl s device state).lampOn = s.lampOn) ∧
    (device = "lamp" → (handleControl s device state).lampOn = (state == "on") ∧
      (handleControl s device state).fanOn = s.fanOn ∧
      (handleControl s device state).lightOn = s.lightOn) ∧
    (device ≠ "fan" → device ≠ "light" → device ≠ "lamp" →
      (handleControl s device state).fanOn = s.fanOn ∧
      (handleControl s device state).lightOn = s.lightOn ∧
      (handleControl s device state).lampOn = s.lampOn) := by
  refine ⟨fun h => ?_, fun h => ?_, fun h => ?_, fun h1 h2 h3 => ?_⟩
  · subst h; simp [handleControl]
  · subst h; simp [handleControl]
  · subst h; simp [handleControl]
  · simp [handleControl, h1, h2, h3]

/-- Witness for C10: a wrongly cased "ON" turns the fan off rather than
on, and an unrecognised device name leaves every actuator unchanged. -/
theorem c10_handleControl_witness :
    (handleControl { initState with fanOn := true } "fan" "ON").fanOn = false ∧
    (handleControl { initState with fanOn := true } "tv" "on").fanOn = true ∧
    (handleControl { initState with fanOn := true } "tv" "on").lightOn = false := by
  refine ⟨((c10_handleControl _ "fan" "ON").1 rfl).1.trans (by decide), ?_, ?_⟩
  · exact ((c10_handleControl _ "tv" "on").2.2.2 (by decide) (by decide) (by decide)).1
  · exact ((c10_handleControl _ "tv" "on").2.2.2 (by decide) (by decide) (by decide)).2.1

/-- C2 counterexample: the schedule command with minute 90 (outside
0-59) is stored verbatim, mutating the prior configuration, contrary to
the claimed clamp-or-reject validation. -/
theorem c2_counterexample :
    (handleSet initState "schedule" "true" 0 6 90).scheduleMinute = 90 ∧
    ¬(handleSet initState "schedule" "true" 0 6 90).scheduleMinute ≤ 59 ∧
    (handleSet initState "schedule" "true" 0 6 90).scheduleMinute ≠
      initState.scheduleMinute := by
  decide

/-- C2 (amended): the schedule branch of `handleSet` stores the parsed
enable/hour/minute values verbatim with no range check or rejection —
out-of-range values reach the stored configuration (and hence the
decision logic) unchanged — while leaving every other field intact. -/
theorem c2_schedule_stored_verbatim (s : SysState) (enable : String)
    (threshold : ℚ) (hour minute : Int) :
    (handleSet s "schedule" enable threshold hour minute).scheduleHour = hour ∧
    (handleSet s "schedule" enable threshold hour minute).scheduleMinute = minute ∧
    (handleSet s "schedule" enable threshold hour minute).scheduleEnabled =
      (enable == "true") ∧
    (handleSet s "schedule" enable threshold hour minute).autoFanEnabled =
      s.autoFanEnabled ∧
    (handleSet s "schedule" enable threshold hour minute).tempThreshold =
      s.tempThreshold ∧
    (handleSet s "schedule" enable threshold hour minute).fanOn = s.fanOn :=
  ⟨rfl, rfl, rfl, rfl, rfl, rfl⟩

/-- C3 part 2 workhorse: once `lastMinute` already equals the schedule
minute, a run of ticks all inside that minute value produces no fire at
all (this is also what blocks a later qualifying minute with the same
minute-of-hour). -/
lemma no_fire_of_lastMinute_eq (s : SysState) (l : List TickInput)
    (hlast : s.lastMinute = s.scheduleMinute)
    (hl : ∀ inp ∈ l, inp.minute = s.scheduleMinute) :
    (runTicks s l).2.count "Scheduled Fan ON" = 0 := by
  induction l generalizing s with
  | nil => rfl
  | cons inp l ih =>
    have hfired : schedFires s inp = false := by
      have hm : inp.minute = s.scheduleMinute := hl inp (List.mem_cons_self _ _)
      simp [schedFires, hm, ← hlast]
    have hlast' : (updateSensorsAndLogic s inp).1.lastMinute =
        (updateSensorsAndLogic s inp).1.scheduleMinute := by
      rw [(tick_config s inp).2.2.2.2]
      simp [updateSensorsAndLogic, hfired, hlast]
    have hev : (updateSensorsAndLogic s inp).2 = [] := by
      simp [updateSensorsAndLogic, hfired]
    show ((updateSensorsAndLogic s inp).2 ++
        (runTicks (updateSensorsAndLogic s inp).1 l).2).count "Scheduled Fan ON" = 0
    rw [hev, List.nil_append]
    apply ih _ hlast'
    intro i hi
    rw [(tick_config s inp).2.2.2.2]
    exact hl i (List.mem_cons_of_mem _ hi)

/-- C3 (amended): the schedule rule is edge-triggered against
`lastMinute`: a nonempty run of ticks all inside the matching minute,
started with `lastMinute` different from the schedule minute, fires
exactly once (not once per tick); but once `lastMinute` equals the
schedule minute a run inside that minute value fires zero times, so a
later qualifying calendar minute with the same minute-of-hour produces
no fire. -/
theorem c3_schedule_edge_trigger :
    (∀ s l, s.scheduleEnabled = true → s.lastMinute ≠ s.scheduleMinute → l ≠ [] →
      (∀ inp ∈ l, inp.hour = s.scheduleHour ∧ inp.minute = s.scheduleMinute) →
      (runTicks s l).2.count "Scheduled Fan ON" = 1) ∧
    (∀ s l, s.lastMinute = s.scheduleMinute →
      (∀ inp ∈ l, inp.minute = s.scheduleMinute) →
      (runTicks s l).2.count "Scheduled Fan ON" = 0) := by
  constructor
  · intro s l hen hlast hne hl
    match l with
    | [] => exact absurd rfl hne
    | inp :: l =>
      have hh : inp.hour = s.scheduleHour := (hl inp (List.mem_cons_self _ _)).1
      have hm : inp.minute = s.scheduleMinute := (hl inp (List.mem_cons_self _ _)).2
      have hfired : schedFires s inp = true := by
        simp [schedFires, hen, hh, hm]
        omega
      have hev : (updateSensorsAndLogic s inp).2 = ["Scheduled Fan ON"] := by
        simp [updateSensorsAndLogic, hfired]
      have hlast' : (updateSensorsAndLogic s inp).1.lastMinute =
          (updateSensorsAndLogic s inp).1.scheduleMinute := by
        rw [(tick_config s inp).2.2.2.2]
        simp [updateSensorsAndLogic, hfired, hm]
      have hzero : (runTicks (updateSensorsAndLogic s inp).1 l).2.count
          "Scheduled Fan ON" = 0 := by
        apply no_fire_of_lastMinute_eq _ _ hlast'
        intro i hi
        rw [(tick_config s inp).2.2.2.2]
        exact (hl i (List.mem_cons_of_mem _ hi)).2
      show ((updateSensorsAndLogic s inp).2 ++
          (runTicks (updateSensorsAndLogic s inp).1 l).2).count "Scheduled Fan ON" = 1
      rw [hev, List.count_append, hzero]
      rfl
  · exact no_fire_of_lastMinute_eq

/-- Witness for C3 (amended): 70 consecutive one-second ticks inside
hour 6 minute 0 with the schedule armed at 6:00 produce exactly one
"Scheduled Fan ON" event. -/
theorem c3_schedule_edge_trigger_witness :
    (runTicks { initState with
        scheduleEnabled := true, scheduleHour := 6
        scheduleMinute := 0 }
      (List.replicate 70
        { newTemp := none, newPressRaw := none, heapIn := 0, rssiIn := 0,
          hour := 6, minute := 0, unixtime := 0, historyDue := false })).2.count
      "Scheduled Fan ON" = 1 :=
  c3_schedule_edge_trigger.1 _ _ rfl (by decide) (by simp) (by decide)

/-- C3 counterexample: with the schedule armed for 6:00, three ticks
lying in two distinct qualifying calendar minutes (6:00 on two different
days, witnessed by distinct epoch timestamps, separated by a 7:30 tick)
produce only one fire — the second qualifying minute fires zero times,
refuting "exactly once per qualifying minute". -/
theorem c3_counterexample :
    (runTicks { initState with
        scheduleEnabled := true, scheduleHour := 6
        scheduleMinute := 0 }
      [{ newTemp := none, newPressRaw := none, heapIn := 0, rssiIn := 0,
          hour := 6, minute := 0, unixtime := 1000, historyDue := false },
       { newTemp := none, newPressRaw := none, heapIn := 0, rssiIn := 0,
          hour := 7, minute := 30, unixtime := 6400, historyDue := false },
       { newTemp := none, newPressRaw := none, heapIn := 0, rssiIn := 0,
          hour := 6, minute := 0, unixtime := 87400, historyDue := false }]).2.count
      "Scheduled Fan ON" = 1 := by
  decide

/-! ## Decimal rendering and parsing lemmas -/

lemma charVal_digitChar {d : Nat} (hd : d < 10) : charVal (digitChar d) = d := by
  interval_cases d <;> decide

lemma digitChar_not_special {d : Nat} (hd : d < 10) (c : Char)
    (hc : c ∈ ([',', '.', '\n', '-', ':', ' '] : List Char)) : digitChar d ≠ c := by
  interval_cases d <;> fin_cases hc <;> decide

lemma mem_natCharsAux {c : Char} :
    ∀ fuel n acc, c ∈ natCharsAux fuel n acc →
      (∃ d, d < 10 ∧ c = digitChar d) ∨ c ∈ acc := by
  intro fuel
  induction fuel with
  | zero => intro n acc h; exact Or.inr h
  | succ fuel ih =>
    intro n acc h
    simp only [natCharsAux] at h
    by_cases hn : n < 10
    · rw [if_pos hn] at h
      rcases List.mem_cons.mp h with h | h
      · exact Or.inl ⟨n, hn, h⟩
      · exact Or.inr h
    · rw [if_neg hn] at h
      rcases ih _ _ h with h | h
      · exact Or.inl h
      · rcases List.mem_cons.mp h with h | h
        · exact Or.inl ⟨n % 10, Nat.mod_lt _ (by omega), h⟩
        · exact Or.inr h

lemma natChars_digit {c : Char} {n : Nat} (h : c ∈ natChars n) :
    ∃ d, d < 10 ∧ c = digitChar d := by
  rcases mem_natCharsAux _ _ _ h with h | h
  · exact h
  · simp at h

lemma natCharsAux_ne_nil : ∀ fuel n acc, natCharsAux (fuel + 1) n acc ≠ [] := by
  intro fuel
  induction fuel with
  | zero =>
    intro n acc
    simp only [natCharsAux]
    split <;> simp
  | succ f ih =>
    intro n acc
    simp only [natCharsAux]
    split
    · simp
    · exact ih _ _

lemma natChars_ne_nil (n : Nat) : natChars n ≠ [] := natCharsAux_ne_nil n n []

lemma natChars_head_ne_of_special (n : Nat) (c : Char)
    (hc : c ∈ ([',', '.', '\n', '-', ':', ' '] : List Char)) :
    (natChars n).head? ≠ some c := by
  cases h : natChars n with
  | nil => simp
  | cons a t =>
    have ha : a ∈ natChars n := by rw [h]; exact List.mem_cons_self a t
    obtain ⟨d, hd, rfl⟩ := natChars_digit ha
    simp only [List.head?_cons, ne_eq, Option.some.injEq]
    exact digitChar_not_special hd c hc

lemma natCharsAux_eq :
    ∀ fuel n acc, 0 < n → n < 10 ^ fuel →
      natCharsAux fuel n acc = ((Nat.digits 10 n).reverse.map digitChar) ++ acc := by
  intro fuel
  induction fuel with
  | zero => intro n acc h1 h2; simp at h2; omega
  | succ fuel ih =>
    intro n acc h1 h2
    simp only [natCharsAux]
    by_cases hn : n < 10
    · rw [if_pos hn, Nat.digits_def' (by norm_num : (1 : Nat) < 10) h1,
        show n / 10 = 0 by omega, Nat.digits_zero, show n % 10 = n by omega]
      simp
    · rw [if_neg hn,
        ih (n / 10) _ (by omega)
          (by rw [pow_succ, Nat.mul_comm] at h2; exact Nat.div_lt_of_lt_mul h2),
        Nat.digits_def' (by norm_num : (1 : Nat) < 10) h1]
      simp

lemma parseNatChars_natChars (n : Nat) : parseNatChars (natChars n) = n := by
  rcases Nat.eq_zero_or_pos n with rfl | hn
  · decide
  · have hlt : n < 10 ^ (n + 1) :=
      lt_of_lt_of_le (Nat.lt_pow_self (by norm_num) n)
        (Nat.pow_le_pow_right (by norm_num) (by omega))
    rw [natChars, natCharsAux_eq _ _ _ hn hlt, List.append_nil]
    unfold parseNatChars
    rw [List.map_map]
    have hmap : (Nat.digits 10 n).reverse.map (charVal ∘ digitChar) =
        (Nat.digits 10 n).reverse := by
      simp only [Function.comp_def]
      rw [List.map_congr_left
        (fun d hd => charVal_digitChar (Nat.digits_lt_base (by norm_num)
          (List.mem_reverse.mp hd)))]
      exact List.map_id _
    rw [hmap, List.reverse_reverse, Nat.ofDigits_digits]

lemma natChars_length_le {n w : Nat} (h1 : 1 ≤ w) (h2 : n < 10 ^ w) :
    (natChars n).length ≤ w := by
  rcases Nat.eq_zero_or_pos n with rfl | hn
  · have : natChars 0 = ['0'] := by decide
    rw [this]
    simpa using h1
  · have hlt : n < 10 ^ (n + 1) :=
      lt_of_lt_of_le (Nat.lt_pow_self (by norm_num) n)
        (Nat.pow_le_pow_right (by norm_num) (by omega))
    rw [natChars, natCharsAux_eq _ _ _ hn hlt, List.append_nil, List.length_map,
      List.length_reverse, Nat.digits_len 10 n (by norm_num) (by omega)]
    have := Nat.log_lt_of_lt_pow (by omega : n ≠ 0) h2
    omega

lemma ofDigits_replicate_zero (b k : Nat) : Nat.ofDigits b (List.replicate k 0) = 0 := by
  induction k with
  | zero => simp
  | succ k ih => rw [List.replicate_succ, Nat.ofDigits_cons, ih]; simp

lemma parseNatChars_padZero (w n : Nat) : parseNatChars (padZero w n) = n := by
  show Nat.ofDigits 10 (((List.replicate _ '0' ++ natChars n).map charVal).reverse) = n
  rw [List.map_append, List.reverse_append, List.map_replicate,
    show charVal '0' = 0 from rfl, List.reverse_replicate, Nat.ofDigits_append,
    ofDigits_replicate_zero, Nat.mul_zero, Nat.add_zero]
  exact parseNatChars_natChars n

lemma padZero_length {w n : Nat} (h1 : 1 ≤ w) (h2 : n < 10 ^ w) :
    (padZero w n).length = w := by
  unfold padZero
  rw [List.length_append, List.length_replicate]
  have := natChars_length_le h1 h2
  omega

lemma padZero_digit {w n : Nat} {c : Char} (h : c ∈ padZero w n) :
    ∃ d, d < 10 ∧ c = digitChar d := by
  unfold padZero at h
  rcases List.mem_append.mp h with h | h
  · refine ⟨0, by omega, ?_⟩
    rw [List.eq_of_mem_replicate h]
    decide
  · exact natChars_digit h

/-! ## splitOnChar lemmas -/

lemma splitOnChar_not_mem {c : Char} {l : List Char} (h : c ∉ l) :
    splitOnChar c l = [l] := by
  induction l with
  | nil => rfl
  | cons a t ih =>
    have ha : ¬a = c := fun e => h (e ▸ List.mem_cons_self a t)
    have ht : c ∉ t := fun e => h (List.mem_cons_of_mem _ e)
    simp only [splitOnChar, if_neg ha]
    rw [ih ht]

lemma splitOnChar_append {c : Char} {a : List Char} (b : List Char) (h : c ∉ a) :
    splitOnChar c (a ++ c :: b) = a :: splitOnChar c b := by
  induction a with
  | nil => simp [splitOnChar]
  | cons x a' ih =>
    have hx : ¬x = c := fun e => h (e ▸ List.mem_cons_self x a')
    have ha : c ∉ a' := fun e => h (List.mem_cons_of_mem _ e)
    show splitOnChar c (x :: (a' ++ c :: b)) = (x :: a') :: splitOnChar c b
    rw [splitOnChar, if_neg hx, ih ha]

/-! ## Signed and fractional field round trips -/

lemma parseIntChars_intChars (z : Int) : parseIntChars (intChars z) = z := by
  unfold intChars parseIntChars
  by_cases hz : z < 0
  · rw [if_pos hz,
      if_pos (show ('-' :: natChars z.natAbs).head? = some '-' from rfl),
      List.tail_cons, parseNatChars_natChars]
    omega
  · rw [if_neg hz,
      if_neg (natChars_head_ne_of_special z.natAbs '-' (by simp)),
      parseNatChars_natChars]
    omega

lemma not_mem_natChars_special {n : Nat} {c : Char}
    (hc : c ∈ ([',', '.', '\n', '-', ':', ' '] : List Char)) : c ∉ natChars n := by
  intro h
  obtain ⟨d, hd, rfl⟩ := natChars_digit h
  exact digitChar_not_special hd _ hc rfl

lemma parseRatChars_ratChars1 (v : ℚ) : parseRatChars (ratChars1 v) = rnd1 v := by
  have hsplit : splitOnChar '.'
      (natChars (round1 v / 10) ++ '.' :: [digitChar (round1 v % 10)]) =
      [natChars (round1 v / 10), [digitChar (round1 v % 10)]] := by
    rw [splitOnChar_append _ (not_mem_natChars_special (by simp)),
      splitOnChar_not_mem (by
        intro h
        rcases List.mem_singleton.mp h with h
        exact digitChar_not_special (Nat.mod_lt _ (by omega)) '.' (by simp) h.symm)]
  have hfp : parseNatChars [digitChar (round1 v % 10)] = round1 v % 10 := by
    show Nat.ofDigits 10 [charVal (digitChar (round1 v % 10))] = round1 v % 10
    rw [charVal_digitChar (Nat.mod_lt _ (by omega)), Nat.ofDigits_singleton]
  have hnum : ∀ s : Int,
      mkRat (s * ((round1 v / 10 : Nat) * 10 ^ ([digitChar (round1 v % 10)]).length +
        (round1 v % 10 : Nat))) (10 ^ ([digitChar (round1 v % 10)]).length) =
      mkRat (s * (round1 v : Nat)) 10 := by
    intro s
    rw [List.length_singleton, pow_one, pow_one]
    congr 2
    omega
  unfold ratChars1 parseRatChars rnd1
  by_cases hv : v < 0
  · rw [if_pos hv, List.singleton_append,
      if_pos (show ('-' :: (natChars (round1 v / 10) ++
        '.' :: [digitChar (round1 v % 10)])).head? = some '-' from rfl),
      if_pos (show ('-' :: (natChars (round1 v / 10) ++
        '.' :: [digitChar (round1 v % 10)])).head? = some '-' from rfl),
      List.tail_cons, hsplit, if_pos hv]
    show mkRat (-1 * ((parseNatChars (natChars (round1 v / 10)) : Nat) *
        10 ^ ([digitChar (round1 v % 10)]).length +
        (parseNatChars [digitChar (round1 v % 10)] : Nat)))
      (10 ^ ([digitChar (round1 v % 10)]).length) = mkRat (-1 * (round1 v : Nat)) 10
    rw [parseNatChars_natChars, hfp]
    exact hnum (-1)
  · have hne : ¬((natChars (round1 v / 10) ++
        '.' :: [digitChar (round1 v % 10)]).head? = some '-') := by
      cases h : natChars (round1 v / 10) with
      | nil => exact absurd h (natChars_ne_nil _)
      | cons a t =>
        rw [List.cons_append, List.head?_cons]
        intro hc
        have ha : a ∈ natChars (round1 v / 10) := by
          rw [h]; exact List.mem_cons_self a t
        obtain ⟨d, hd, rfl⟩ := natChars_digit ha
        exact digitChar_not_special hd '-' (by simp) (Option.some.inj hc)
    rw [if_neg hv, List.nil_append, if_neg hne, if_neg hne, hsplit, if_neg hv]
    show mkRat (1 * ((parseNatChars (natChars (round1 v / 10)) : Nat) *
        10 ^ ([digitChar (round1 v % 10)]).length +
        (parseNatChars [digitChar (round1 v % 10)] : Nat)))
      (10 ^ ([digitChar (round1 v % 10)]).length) = mkRat (1 * (round1 v : Nat)) 10
    rw [parseNatChars_natChars, hfp]
    exact hnum 1

/-! ## Calendar arithmetic lemmas -/

lemma priorDays_succ (y : Nat) : priorDays (y + 1) = priorDays y + 365 + leap y := by
  unfold priorDays leap
  split <;> omega

lemma leap_le (y : Nat) : leap y ≤ 1 := by
  unfold leap; split <;> omega

lemma yearLoop_spec :
    ∀ fuel y days, days < 365 * fuel →
      priorDays (yearLoop fuel y days).1 + (yearLoop fuel y days).2 = priorDays y + days ∧
      (yearLoop fuel y days).2 < 365 + leap (yearLoop fuel y days).1 ∧
      y ≤ (yearLoop fuel y days).1 := by
  intro fuel
  induction fuel with
  | zero => intro y days h; omega
  | succ f ih =>
    intro y days h
    simp only [yearLoop]
    split
    · next hlt => exact ⟨rfl, hlt, Nat.le_refl y⟩
    · next hge =>
      have hl := leap_le y
      have hd : days - (365 + leap y) < 365 * f := by omega
      obtain ⟨h1, h2, h3⟩ := ih (y + 1) (days - (365 + leap y)) hd
      refine ⟨?_, h2, by omega⟩
      rw [h1, priorDays_succ]
      omega

lemma monthPriorFrom_self (L : Bool) (a : Nat) : monthPriorFrom L a a = 0 := by
  unfold monthPriorFrom
  simp

lemma monthPriorFrom_step (L : Bool) {a m : Nat} (h : a < m) :
    monthPriorFrom L a m = monthLen L a + monthPriorFrom L (a + 1) m := by
  unfold monthPriorFrom
  rw [show m - a = (m - (a + 1)) + 1 by omega, List.range'_succ]
  simp

lemma monthLoop_spec (L : Bool) :
    ∀ fuel m days, 1 ≤ m → m ≤ 12 → m + fuel = 13 →
      m ≤ (monthLoop fuel L m days).1 ∧ (monthLoop fuel L m days).1 ≤ 12 ∧
      monthPriorFrom L m (monthLoop fuel L m days).1 + (monthLoop fuel L m days).2 = days ∧
      ((monthLoop fuel L m days).1 < 12 →
        (monthLoop fuel L m days).2 < monthLen L (monthLoop fuel L m days).1) := by
  intro fuel
  induction fuel with
  | zero => intro m days h1 h2 h3; omega
  | succ f ih =>
    intro m days h1 h2 h3
    simp only [monthLoop]
    by_cases hm : m < 12
    · rw [if_pos hm]
      by_cases hd : days < monthLen L m
      · rw [if_pos hd]
        exact ⟨Nat.le_refl m, by omega, by rw [monthPriorFrom_self, Nat.zero_add], fun _ => hd⟩
      · rw [if_neg hd]
        obtain ⟨g1, g2, g3, g4⟩ := ih (m + 1) (days - monthLen L m)
          (by omega) (by omega) (by omega)
        refine ⟨by omega, g2, ?_, g4⟩
        rw [monthPriorFrom_step L (by omega : m < (monthLoop f L (m + 1)
          (days - monthLen L m)).1)]
        omega
    · rw [if_neg hm]
      exact ⟨Nat.le_refl m, h2, by rw [monthPriorFrom_self, Nat.zero_add], fun hc => absurd hc hm⟩

lemma date2days_month_bridge (L : Bool) (m : Nat) (h1 : 1 ≤ m) (h2 : m ≤ 12) :
    ((List.range' 1 (m - 1)).map (fun i => daysInMonthTab.getD (i - 1) 0)).sum +
      (if 2 < m ∧ L = true then 1 else 0) = monthPriorFrom L 1 m := by
  interval_cases m <;> cases L <;> decide

lemma monthLen_le (L : Bool) {m : Nat} (h1 : 1 ≤ m) (h2 : m ≤ 12) :
    monthLen L m ≤ 31 := by
  interval_cases m <;> cases L <;> decide

lemma monthPriorFrom_full (L : Bool) :
    monthPriorFrom L 1 12 = 334 + (if L = true then 1 else 0) := by
  cases L <;> decide

/-- Core of the round trip, over the already-wrapped `uint32` value:
re-encoding the calendar split of `u` gives `(u + EPOCH2000) % 2 ^ 32`,
and every field fits its fixed-width rendering. -/
lemma epochToCivilAux_spec (u : Nat) (hu : u < 2 ^ 32) :
    civilToEpoch (epochToCivilAux u) = (u + EPOCH2000) % 2 ^ 32 ∧
      (epochToCivilAux u).year < 10000 ∧
      1 ≤ (epochToCivilAux u).month ∧ (epochToCivilAux u).month < 100 ∧
      1 ≤ (epochToCivilAux u).day ∧ (epochToCivilAux u).day < 100 ∧
      (epochToCivilAux u).hour < 100 ∧ (epochToCivilAux u).minute < 100 ∧
      (epochToCivilAux u).second < 100 := by
  rcases hyr : yearLoop (u / 60 / 60 / 24 / 365 + 1) 0 (u / 60 / 60 / 24) with ⟨y, r⟩
  rcases hmo : monthLoop 12 (decide (y % 4 = 0)) 1 r with ⟨m, d0⟩
  have hE : epochToCivilAux u =
      { year := 2000 + y, month := m, day := d0 + 1
        hour := u / 60 / 60 % 24
        minute := u / 60 % 60
        second := u % 60 } := by
    simp only [epochToCivilAux, hyr, hmo]
  have hys := yearLoop_spec (u / 60 / 60 / 24 / 365 + 1) 0 (u / 60 / 60 / 24) (by omega)
  simp only [hyr] at hys
  obtain ⟨hy1, hy2, -⟩ := hys
  have hms := monthLoop_spec (decide (y % 4 = 0)) 12 1 r (by norm_num) (by norm_num)
    (by norm_num)
  simp only [hmo] at hms
  obtain ⟨hm1, hm2, hm3, hm4⟩ := hms
  have hpd0 : priorDays 0 = 0 := by decide
  rw [hpd0, Nat.zero_add] at hy1
  unfold priorDays at hy1
  have hle := leap_le y
  have hday : d0 + 1 < 100 := by
    rcases Nat.lt_or_ge m 12 with h12 | h12
    · have g1 := hm4 h12
      have g2 := monthLen_le (decide (y % 4 = 0)) hm1 hm2
      omega
    · have h12e : m = 12 := by omega
      subst h12e
      rw [monthPriorFrom_full] at hm3
      by_cases h4 : y % 4 = 0
      · rw [if_pos (by simp [h4])] at hm3
        omega
      · rw [if_neg (by simp [h4])] at hm3
        omega
  simp only [hE]
  refine ⟨?_, by omega, hm1, by omega, by omega, hday, by omega, by omega, by omega⟩
  simp only [civilToEpoch, date2days]
  rw [if_pos (by omega : 2000 ≤ 2000 + y), show 2000 + y - 2000 = y by omega]
  have hb : ((List.range' 1 (m - 1)).map (fun i => daysInMonthTab.getD (i - 1) 0)).sum +
      (if 2 < m ∧ y % 4 = 0 then 1 else 0) = monthPriorFrom (decide (y % 4 = 0)) 1 m := by
    have hbr := date2days_month_bridge (decide (y % 4 = 0)) m hm1 hm2
    simpa [decide_eq_true_eq] using hbr
  omega

/-- Round trip and field bounds of the epoch/calendar conversion for
any `uint32` epoch value. -/
lemma epochToCivil_spec (t : Nat) (ht : t < 2 ^ 32) :
    civilToEpoch (epochToCivil t) = t ∧
      (epochToCivil t).year < 10000 ∧
      1 ≤ (epochToCivil t).month ∧ (epochToCivil t).month < 100 ∧
      1 ≤ (epochToCivil t).day ∧ (epochToCivil t).day < 100 ∧
      (epochToCivil t).hour < 100 ∧ (epochToCivil t).minute < 100 ∧
      (epochToCivil t).second < 100 := by
  have h := epochToCivilAux_spec ((t + (2 ^ 32 - EPOCH2000)) % 2 ^ 32)
    (Nat.mod_lt _ (by norm_num))
  have hunf : epochToCivil t = epochToCivilAux ((t + (2 ^ 32 - EPOCH2000)) % 2 ^ 32) := rfl
  rw [hunf, h.1]
  refine ⟨?_, h.2⟩
  have hE2000 : EPOCH2000 = 946684800 := rfl
  omega


/-! ## Timestamp rendering round trip -/

lemma take_pref {α} (p rest : List α) (x : α) {n : Nat} (hp : p.length = n) :
    (p ++ x :: rest).take n = p := List.take_left' hp

lemma drop_sep {α} (p rest : List α) (x : α) {n : Nat} (hp : p.length + 1 = n) :
    (p ++ x :: rest).drop n = rest := by
  subst hp
  rw [show p ++ x :: rest = (p ++ [x]) ++ rest by simp]
  exact List.drop_left' (by simp)

lemma parseTs_fmtTs (c : DT) (h1 : c.year < 10000) (hmo : c.month < 100)
    (hda : c.day < 100) (hho : c.hour < 100) (hmi : c.minute < 100)
    (hse : c.second < 100) : parseTsChars (fmtTs c) = civilToEpoch c := by
  have hp4 : (padZero 4 c.year).length = 4 := padZero_length (by norm_num) h1
  have hpm : (padZero 2 c.month).length = 2 := padZero_length (by norm_num) hmo
  have hpd : (padZero 2 c.day).length = 2 := padZero_length (by norm_num) hda
  have hph : (padZero 2 c.hour).length = 2 := padZero_length (by norm_num) hho
  have hpi : (padZero 2 c.minute).length = 2 := padZero_length (by norm_num) hmi
  have hps : (padZero 2 c.second).length = 2 := padZero_length (by norm_num) hse
  have d5 : (fmtTs c).drop 5 = padZero 2 c.month ++ ('-' :: (padZero 2 c.day ++
      (' ' :: (padZero 2 c.hour ++ (':' :: (padZero 2 c.minute ++
      (':' :: padZero 2 c.second))))))) := drop_sep _ _ _ (by rw [hp4])
  have d8 : (fmtTs c).drop 8 = padZero 2 c.day ++ (' ' :: (padZero 2 c.hour ++
      (':' :: (padZero 2 c.minute ++ (':' :: padZero 2 c.second))))) := by
    rw [show (8 : Nat) = 5 + 3 from rfl, ← List.drop_drop, d5]
    exact drop_sep _ _ _ (by rw [hpm])
  have d11 : (fmtTs c).drop 11 = padZero 2 c.hour ++ (':' :: (padZero 2 c.minute ++
      (':' :: padZero 2 c.second))) := by
    rw [show (11 : Nat) = 8 + 3 from rfl, ← List.drop_drop, d8]
    exact drop_sep _ _ _ (by rw [hpd])
  have d14 : (fmtTs c).drop 14 = padZero 2 c.minute ++ (':' :: padZero 2 c.second) := by
    rw [show (14 : Nat) = 11 + 3 from rfl, ← List.drop_drop, d11]
    exact drop_sep _ _ _ (by rw [hph])
  have d17 : (fmtTs c).drop 17 = padZero 2 c.second := by
    rw [show (17 : Nat) = 14 + 3 from rfl, ← List.drop_drop, d14]
    exact drop_sep _ _ _ (by rw [hpi])
  have t4 : (fmtTs c).take 4 = padZero 4 c.year := take_pref _ _ _ hp4
  have t17 : (padZero 2 c.second).take 2 = padZero 2 c.second :=
    List.take_of_length_le (by rw [hps])
  unfold parseTsChars
  rw [d5, d8, d11, d14, d17, t4, t17, take_pref _ _ _ hpm, take_pref _ _ _ hpd,
    take_pref _ _ _ hph, take_pref _ _ _ hpi, parseNatChars_padZero,
    parseNatChars_padZero, parseNatChars_padZero, parseNatChars_padZero,
    parseNatChars_padZero, parseNatChars_padZero]

/-! ## CSV row and file round trip -/

lemma not_mem_padZero_special {w n : Nat} {c : Char}
    (hc : c ∈ ([',', '.', '\n', '-', ':', ' '] : List Char)) : c ∉ padZero w n := by
  intro h
  obtain ⟨d, hd, rfl⟩ := padZero_digit h
  exact digitChar_not_special hd _ hc rfl

lemma not_mem_fmtTs {c : DT} {x : Char}
    (hx : x ∈ ([',', '\n'] : List Char)) : x ∉ fmtTs c := by
  have hx6 : x ∈ ([',', '.', '\n', '-', ':', ' '] : List Char) := by
    rcases List.mem_cons.mp hx with h | h
    · subst h; decide
    · rcases List.mem_singleton.mp h with h
      subst h; decide
  have hsep : x ≠ '-' ∧ x ≠ ' ' ∧ x ≠ ':' := by
    rcases List.mem_cons.mp hx with h | h
    · subst h; exact ⟨by decide, by decide, by decide⟩
    · rcases List.mem_singleton.mp h with h
      subst h; exact ⟨by decide, by decide, by decide⟩
  intro h
  unfold fmtTs at h
  rcases List.mem_append.mp h with h | h
  · exact not_mem_padZero_special hx6 h
  rcases List.mem_cons.mp h with h | h
  · exact hsep.1 h
  rcases List.mem_append.mp h with h | h
  · exact not_mem_padZero_special hx6 h
  rcases List.mem_cons.mp h with h | h
  · exact hsep.1 h
  rcases List.mem_append.mp h with h | h
  · exact not_mem_padZero_special hx6 h
  rcases List.mem_cons.mp h with h | h
  · exact hsep.2.1 h
  rcases List.mem_append.mp h with h | h
  · exact not_mem_padZero_special hx6 h
  rcases List.mem_cons.mp h with h | h
  · exact hsep.2.2 h
  rcases List.mem_append.mp h with h | h
  · exact not_mem_padZero_special hx6 h
  rcases List.mem_cons.mp h with h | h
  · exact hsep.2.2 h
  exact not_mem_padZero_special hx6 h

lemma not_mem_ratChars1 {v : ℚ} {x : Char}
    (hx : x ∈ ([',', '\n'] : List Char)) : x ∉ ratChars1 v := by
  have hx6 : x ∈ ([',', '.', '\n', '-', ':', ' '] : List Char) := by
    rcases List.mem_cons.mp hx with h | h
    · subst h; decide
    · rcases List.mem_singleton.mp h with h
      subst h; decide
  have hne : x ≠ '-' ∧ x ≠ '.' := by
    rcases List.mem_cons.mp hx with h | h
    · subst h; exact ⟨by decide, by decide⟩
    · rcases List.mem_singleton.mp h with h
      subst h; exact ⟨by decide, by decide⟩
  intro h
  unfold ratChars1 at h
  rcases List.mem_append.mp h with h | h
  · split at h
    · exact hne.1 (List.mem_singleton.mp h)
    · simp at h
  rcases List.mem_append.mp h with h | h
  · exact not_mem_natChars_special hx6 h
  rcases List.mem_cons.mp h with h | h
  · exact hne.2 h
  · rcases List.mem_singleton.mp h with h
    exact digitChar_not_special (Nat.mod_lt _ (by omega)) x hx6 h.symm

lemma not_mem_intChars {z : Int} {x : Char}
    (hx : x ∈ ([',', '\n'] : List Char)) : x ∉ intChars z := by
  have hx6 : x ∈ ([',', '.', '\n', '-', ':', ' '] : List Char) := by
    rcases List.mem_cons.mp hx with h | h
    · subst h; decide
    · rcases List.mem_singleton.mp h with h
      subst h; decide
  have hne : x ≠ '-' := by
    rcases List.mem_cons.mp hx with h | h
    · subst h; decide
    · rcases List.mem_singleton.mp h with h
      subst h; decide
  intro h
  unfold intChars at h
  split at h
  · rcases List.mem_cons.mp h with h | h
    · exact hne h
    · exact not_mem_natChars_special hx6 h
  · exact not_mem_natChars_special hx6 h

lemma entryRow_split (e : HistoryEntry) :
    splitOnChar ',' (entryRowChars e) =
      [fmtTs (epochToCivil e.timestamp), ratChars1 e.temp, ratChars1 e.press,
        natChars e.heap, intChars e.rssi] := by
  unfold entryRowChars
  rw [splitOnChar_append _ (not_mem_fmtTs (by decide)),
    splitOnChar_append _ (not_mem_ratChars1 (by decide)),
    splitOnChar_append _ (not_mem_ratChars1 (by decide)),
    splitOnChar_append _ (not_mem_natChars_special (by decide)),
    splitOnChar_not_mem (not_mem_intChars (by decide))]

lemma parseRowChars_five {l ts f1 f2 f3 f4 : List Char}
    (h : splitOnChar ',' l = [ts, f1, f2, f3, f4]) :
    parseRowChars l = some
      { timestamp := parseTsChars ts, temp := parseRatChars f1, press := parseRatChars f2
        heap := parseNatChars f3, rssi := parseIntChars f4 } := by
  unfold parseRowChars
  rw [h]

lemma parseRow_entry (e : HistoryEntry) (ht : e.timestamp < 2 ^ 32) :
    parseRowChars (entryRowChars e) = some (roundEntry e) := by
  obtain ⟨hrt, hy, hm1, hm2, hd1, hd2, hho, hmi, hse⟩ := epochToCivil_spec e.timestamp ht
  rw [parseRowChars_five (entryRow_split e),
    parseTs_fmtTs _ hy hm2 hd2 hho hmi hse, hrt, parseRatChars_ratChars1,
    parseRatChars_ratChars1, parseNatChars_natChars, parseIntChars_intChars]
  rfl

lemma not_mem_entryRow_newline (e : HistoryEntry) : '\n' ∉ entryRowChars e := by
  intro h
  unfold entryRowChars at h
  rcases List.mem_append.mp h with h | h
  · exact not_mem_fmtTs (by decide) h
  rcases List.mem_cons.mp h with h | h
  · exact absurd h (by decide)
  rcases List.mem_append.mp h with h | h
  · exact not_mem_ratChars1 (by decide) h
  rcases List.mem_cons.mp h with h | h
  · exact absurd h (by decide)
  rcases List.mem_append.mp h with h | h
  · exact not_mem_ratChars1 (by decide) h
  rcases List.mem_cons.mp h with h | h
  · exact absurd h (by decide)
  rcases List.mem_append.mp h with h | h
  · exact not_mem_natChars_special (by decide) h
  rcases List.mem_cons.mp h with h | h
  · exact absurd h (by decide)
  exact not_mem_intChars (by decide) h

lemma splitOnChar_rowsChars (l : List HistoryEntry) :
    splitOnChar '\n' (rowsChars l) = l.map entryRowChars ++ [[]] := by
  induction l with
  | nil => rfl
  | cons e t ih =>
    show splitOnChar '\n' (entryRowChars e ++ '\n' :: rowsChars t) = _
    rw [splitOnChar_append _ (not_mem_entryRow_newline e), ih, List.map_cons,
      List.cons_append]

lemma mapM_map_eq_some {α β γ : Type} (f : β → Option γ) (g : α → β) (k : α → γ) :
    ∀ l : List α, (∀ a ∈ l, f (g a) = some (k a)) →
      (l.map g).mapM f = some (l.map k) := by
  intro l
  induction l with
  | nil => intro _; rfl
  | cons a t ih =>
    intro h
    rw [List.map_cons, List.map_cons, List.mapM_cons, h a (List.mem_cons_self a t),
      ih (fun x hx => h x (List.mem_cons_of_mem _ hx))]
    rfl

/-- C6 (amended): re-parsing the CSV export yields, for each stored
sample in the same oldest-to-newest order as the `handleHistory`
snapshot, the tuple with the timestamp, heap and rssi exactly equal and
the temperature and pressure rounded to the one decimal the export
prints; the export starts with the fixed header line
`Timestamp,Temperature,Pressure,Heap,RSSI` and has exactly one data
line per stored sample (so an empty store yields zero data rows). -/
theorem c6_csv_roundtrip (s : HistoryState)
    (hts : ∀ e ∈ handleHistory s, e.timestamp < 2 ^ 32) :
    parseCsv (handleCsv s) = some ((handleHistory s).map roundEntry) ∧
    (splitOnChar '\n' (handleCsv s).toList).head? = some csvHeaderChars ∧
    (splitOnChar '\n' (handleCsv s).toList).length = (handleHistory s).length + 2 := by
  have hsplit : splitOnChar '\n' (handleCsv s).toList =
      csvHeaderChars :: ((handleHistory s).map entryRowChars ++ [[]]) := by
    show splitOnChar '\n' (csvHeaderChars ++ '\n' :: rowsChars (handleHistory s)) =
      csvHeaderChars :: ((handleHistory s).map entryRowChars ++ [[]])
    rw [splitOnChar_append _ (by decide : '\n' ∉ csvHeaderChars),
      splitOnChar_rowsChars]
  refine ⟨?_, ?_, ?_⟩
  · unfold parseCsv
    rw [hsplit]
    show (((handleHistory s).map entryRowChars ++ [[]]).dropLast).mapM parseRowChars =
      some ((handleHistory s).map roundEntry)
    rw [List.dropLast_concat]
    exact mapM_map_eq_some parseRowChars entryRowChars roundEntry _
      (fun e he => parseRow_entry e (hts e he))
  · rw [hsplit]
    rfl
  · rw [hsplit]
    simp

/-- Witness for C6 (amended) at a one-sample store: temperature 23.45
comes back as its rounded value 23.5, the other fields exactly. -/
theorem c6_csv_roundtrip_witness :
    parseCsv (handleCsv (appendHistory initHistory
        { timestamp := 946684800, temp := mkRat 2345 100, press := mkRat 10132 10
          heap := 20000, rssi := -70 })) =
      some ((handleHistory (appendHistory initHistory
        { timestamp := 946684800, temp := mkRat 2345 100, press := mkRat 10132 10
          heap := 20000, rssi := -70 })).map roundEntry) :=
  (c6_csv_roundtrip _ (by decide)).1

/-- C6 counterexample: a store holding one sample with temperature
23.45 re-parses to 23.5, so exporting then re-parsing does not yield
the same tuples as the ordered snapshot. -/
theorem c6_counterexample :
    parseCsv (handleCsv (appendHistory initHistory
        { timestamp := 946684800, temp := mkRat 2345 100, press := mkRat 10132 10
          heap := 20000, rssi := -70 })) ≠
      some (handleHistory (appendHistory initHistory
        { timestamp := 946684800, temp := mkRat 2345 100, press := mkRat 10132 10
          heap := 20000, rssi := -70 })) := by
  decide

end SmartRoom
